import Mathlib

/-
Verification of the streaming chat session core of the Untitled-AI repository:
the Model Session Client (class ChatInterface, src/src/services — the module
exported as services/geminiChat) and the Chat Session Manager (the React hook
useGeminiChat, src/src/hooks/useGeminiChat.ts).

The embedding is shallow:
  * ChatInterface.sendMessage / handleStreamingResponse / handleRegularResponse /
    handleError become pure functions from a transport oracle (one outcome per
    attempt) to a ClientResult recording the callback invocations (in order),
    the resolved ChatResponse, the final conversation-history mirror, the
    delays awaited between attempts, and the number of transport attempts made.
  * The hook's reactive state updates become a step function on an explicit
    HookState; the asynchronous callbacks of a call and a user-initiated
    stopStreaming are interleaved as an explicit event list.
  * Date.now() / generateMessageId() are abstracted: the hook draws message ids
    and timestamps from a per-session counter (nextId); the client mirror uses
    the placeholder timestamp 0 and the placeholder id "mid" (no claim inspects
    these fields of the mirror).
-/

set_option autoImplicit false

namespace UntitledAI

/-- Message role, from the ChatMessage interface (role: user | assistant | system). -/
inductive Role where
  | user
  | assistant
  | system
deriving DecidableEq, Repr

/-- ChatMessage, from services/geminiChat: role, content, timestamp, messageId. -/
structure ChatMessage where
  role : Role
  content : String
  timestamp : Nat
  messageId : String
deriving DecidableEq, Repr

/-- ChatResponse, from services/geminiChat: success, optional message text,
optional messageId, optional error string (processTime omitted: no claim
mentions it). -/
structure ChatResponse where
  success : Bool
  message : Option String
  messageId : Option String
  error : Option String
deriving DecidableEq, Repr

/-- A thrown JavaScript Error, as observed by the catch blocks: its name
(checked against "AbortError" by the hook) and its message. -/
structure JSError where
  name : String
  message : String
deriving DecidableEq, Repr

/-- The errorHandling part of the ChatInterface config: retries (a JS number,
compared with the loop counter, so modelled as Int) and fallbackMessage. -/
structure ErrorHandling where
  retries : Int
  fallbackMessage : String
deriving DecidableEq, Repr

/-- The part of the ChatInterface constructor config the session logic reads:
messageHistory and errorHandling (apiKey, model name, temperature, maxTokens
and systemPrompt only parameterize the external transport). -/
structure ChatConfig where
  messageHistory : Bool
  errorHandling : ErrorHandling
deriving DecidableEq, Repr

/-- One callback invocation made by ChatInterface during a call: the
StreamCallbacks members onTokenReceived, onProgress, onComplete, onError. -/
inductive Event where
  | token (chunk : String)
  | progress (accumulated : Nat)
  | complete (full : String)
  | error (e : JSError)
deriving DecidableEq, Repr

/-- Outcome of one transport attempt (chat.sendMessageStream / chat.sendMessage):
the chunks the stream delivers, followed either by normal completion
(failure = none) or by a thrown error (failure = some e).  For the
non-streaming transport the successful text is the join of the chunks. -/
structure StreamAttempt where
  chunks : List String
  failure : Option JSError
deriving Repr

/-- Everything observable about one ChatInterface.sendMessage call. -/
structure ClientResult where
  events : List Event
  response : ChatResponse
  history : List ChatMessage
  delays : List Nat
  attemptsMade : Nat
deriving Repr

/-- The callback invocations of the chunk loop in handleStreamingResponse:
for each chunk, onTokenReceived(chunkText) then onProgress(progress), where
progress accumulates the chunk lengths. -/
def chunkEvents : List String → Nat → List Event
  | [], _ => []
  | c :: cs, acc =>
      Event.token c :: Event.progress (acc + c.length) :: chunkEvents cs (acc + c.length)

/-- All callback invocations of a single streaming attempt: the chunk loop,
then onComplete(fullMessage) on normal completion or onError(e) from the
catch block of handleStreamingResponse on a thrown error. -/
def attemptEvents (a : StreamAttempt) : List Event :=
  chunkEvents a.chunks 0 ++
    (match a.failure with
     | none => [Event.complete (String.join a.chunks)]
     | some e => [Event.error e])

/--
The retry loop of ChatInterface.sendMessage:

  let retries = 0;
  while (retries < this.errorHandling.retries) {
    try { ... handleStreamingResponse / handleRegularResponse ... }
    catch (error) {
      retries++;
      if (retries >= this.errorHandling.retries) return this.handleError(error, messageId);
      await this.delay(1000 * retries);
    }
  }
  return { success: false, error: this.errorHandling.fallbackMessage, messageId };

The while condition is embedded by structural recursion on
remaining = (errorHandling.retries - retries).toNat, which is a loop
invariant: at entry remaining = retries.toNat and retries = 0; the guard
retries < errorHandling.retries (over Int) is equivalent to 0 < remaining;
after retries++ the exhaustion test retries >= errorHandling.retries is
equivalent to remaining = 1 before the increment, i.e. the pattern
remaining = 0 after peeling one; and the recursive call's fuel
(errorHandling.retries - (retries+1)).toNat is exactly remaining.

Attempt number retries consults the transport oracle; a successful attempt
appends the assistant reply to the history mirror (handleStreamingResponse /
handleRegularResponse) and resolves successfully; a failing streaming attempt
fires onError from the catch of handleStreamingResponse before rethrowing
(the non-streaming handleRegularResponse has no catch, so fires nothing);
handleError logs and resolves with success: false and the fallback message.
-/
def sendLoop (cfg : ChatConfig) (stream : Bool) (oracle : Nat → StreamAttempt)
    (mid : String) (hist : List ChatMessage) :
    Nat → Nat → List Event → List Nat → Nat → ClientResult
  | 0, _, accE, accD, made =>
      ⟨accE, ⟨false, none, some mid, some cfg.errorHandling.fallbackMessage⟩,
       hist, accD, made⟩
  | remaining + 1, retries, accE, accD, made =>
      let a := oracle retries
      match a.failure with
      | none =>
          let full := String.join a.chunks
          let evs := if stream then chunkEvents a.chunks 0 ++ [Event.complete full] else []
          ⟨accE ++ evs,
           ⟨true, some full, some mid, none⟩,
           if cfg.messageHistory then hist ++ [⟨Role.assistant, full, 0, "mid"⟩] else hist,
           accD, made + 1⟩
      | some e =>
          let evs := if stream then chunkEvents a.chunks 0 ++ [Event.error e] else []
          if remaining = 0 then
            ⟨accE ++ evs,
             ⟨false, none, some mid, some cfg.errorHandling.fallbackMessage⟩,
             hist, accD, made + 1⟩
          else
            sendLoop cfg stream oracle mid hist remaining (retries + 1)
              (accE ++ evs) (accD ++ [1000 * (retries + 1)]) (made + 1)

/-- ChatInterface.sendMessage: generates a messageId (abstracted to "mid"),
pushes the user message onto the conversation-history mirror when
messageHistory is enabled — unconditionally, before any attempt — and runs
the retry loop. -/
def clientSend (cfg : ChatConfig) (stream : Bool) (oracle : Nat → StreamAttempt)
    (role : Role) (content : String) (hist : List ChatMessage) : ClientResult :=
  let hist0 :=
    if cfg.messageHistory then hist ++ [⟨role, content, 0, "mid"⟩] else hist
  sendLoop cfg stream oracle "mid" hist0 cfg.errorHandling.retries.toNat 0 [] [] 0

/-- JavaScript String.prototype.trim, embedded over the character list:
strip leading and trailing whitespace.  The hook's guard
if (!content.trim()) return tests this result for emptiness. -/
def jsTrim (s : String) : String :=
  String.mk (((s.data.dropWhile Char.isWhitespace).reverse.dropWhile
    Char.isWhitespace).reverse)

/-- The ChatState object of useGeminiChat: messages, isLoading, error,
isStreaming, currentStreamingMessage. -/
structure ChatState where
  messages : List ChatMessage
  isLoading : Bool
  error : Option String
  isStreaming : Bool
  currentStreamingMessage : String
deriving DecidableEq, Repr

/-- The hook's full mutable footprint: the React state, the mutable ref
streamingMessageRef, whether abortControllerRef currently holds a live
controller, and the counter standing in for Date.now() in message ids and
timestamps. -/
structure HookState where
  state : ChatState
  streamingMessageRef : String
  abortActive : Bool
  nextId : Nat
deriving DecidableEq, Repr

/-- The hook's initial useState value, with empty refs. -/
def initialHookState : HookState :=
  ⟨⟨[], false, none, false, ""⟩, "", false, 0⟩

/-- One streaming callback of the in-flight call, applied to the hook state
exactly as the StreamCallbacks wired inside sendMessage do:
  * onTokenReceived appends the token to streamingMessageRef and copies the
    ref into currentStreamingMessage — with no check of the abort controller;
  * onProgress is an empty handler;
  * onComplete appends the assistant message, clears isLoading, isStreaming
    and currentStreamingMessage, and nulls the abort controller;
  * onError, unless the error is an AbortError, records error.message in
    state.error and clears the flags and currentStreamingMessage (the ref is
    left as is); it always nulls the abort controller. -/
def applyEvent (s : HookState) (e : Event) : HookState :=
  match e with
  | Event.token t =>
      let ref := s.streamingMessageRef ++ t
      { s with
        streamingMessageRef := ref,
        state := { s.state with currentStreamingMessage := ref } }
  | Event.progress _ => s
  | Event.complete full =>
      { s with
        state := { s.state with
          messages := s.state.messages ++
            [⟨Role.assistant, full, s.nextId, "assistant_" ++ toString s.nextId⟩],
          isLoading := false,
          isStreaming := false,
          currentStreamingMessage := "" },
        abortActive := false,
        nextId := s.nextId + 1 }
  | Event.error err =>
      if err.name ≠ "AbortError" then
        { s with
          state := { s.state with
            error := some err.message,
            isLoading := false,
            isStreaming := false,
            currentStreamingMessage := "" },
          abortActive := false }
      else
        { s with abortActive := false }

/-- The hook's stopStreaming: aborts and nulls the controller if one is live
(the abort signal is never handed to ChatInterface.sendMessage, so aborting
has no effect on the transport), then unconditionally clears isStreaming,
isLoading and currentStreamingMessage. -/
def stopStreaming (s : HookState) : HookState :=
  { s with
    abortActive := false,
    state := { s.state with
      isStreaming := false,
      isLoading := false,
      currentStreamingMessage := "" } }

/-- The synchronous prefix of the hook's sendMessage: the early return when
content.trim() is empty; otherwise append the user message, set
isLoading := true, clear error, set isStreaming := enableStreaming, clear
currentStreamingMessage, reset streamingMessageRef, and install a fresh
AbortController. -/
def hookSendStart (enableStreaming : Bool) (content : String) (s : HookState) : HookState :=
  if jsTrim content = "" then s
  else
    { state :=
        { messages := s.state.messages ++
            [⟨Role.user, content, s.nextId, "user_" ++ toString s.nextId⟩],
          isLoading := true,
          error := none,
          isStreaming := enableStreaming,
          currentStreamingMessage := "" },
      streamingMessageRef := "",
      abortActive := true,
      nextId := s.nextId + 1 }

/-- The hook's handling of the resolved ChatResponse after the await:
in non-streaming mode a successful response commits the assistant message and
clears isLoading; any unsuccessful response records response.error (or
"Unknown error occurred") and clears isLoading and isStreaming (but not
currentStreamingMessage); a successful streaming response changes nothing. -/
def applyResponse (enableStreaming : Bool) (r : ChatResponse) (s : HookState) : HookState :=
  if !enableStreaming && r.success then
    { s with
      state := { s.state with
        messages := s.state.messages ++
          [⟨Role.assistant, r.message.getD "", s.nextId,
            r.messageId.getD ("assistant_" ++ toString s.nextId)⟩],
        isLoading := false },
      nextId := s.nextId + 1 }
  else if !r.success then
    { s with
      state := { s.state with
        error := some (r.error.getD "Unknown error occurred"),
        isLoading := false,
        isStreaming := false } }
  else s

/-- Hook state plus the ChatInterface instance's private history mirror
(chatRef.current.conversationHistory). -/
structure SessionState where
  hook : HookState
  mirror : List ChatMessage
deriving Repr

/-- One whole turn of the hook's sendMessage with no interleaved
stopStreaming: the trim guard, the synchronous start, the awaited
ChatInterface.sendMessage whose callbacks fire in order during the await
(streaming mode wires the callbacks; non-streaming passes none, so the call
produces no events), then the response handling.  Returns the new session
state and the number of transport attempts the call made. -/
def sessionTurn (cfg : ChatConfig) (enableStreaming : Bool)
    (oracle : Nat → StreamAttempt) (content : String) (s : SessionState) :
    SessionState × Nat :=
  if jsTrim content = "" then (s, 0)
  else
    let h1 := hookSendStart enableStreaming content s.hook
    let r := clientSend cfg enableStreaming oracle Role.user content s.mirror
    let h2 := r.events.foldl applyEvent h1
    let h3 := applyResponse enableStreaming r.response h2
    (⟨h3, r.history⟩, r.attemptsMade)

/-- The synchronous part of the hook's retryLastMessage: find the most recent
user message (reverse().find), locate it by messageId (findIndex), truncate
the committed sequence to end at it (slice(0, index+1)), clear error, and
hand back the content to re-send; none when no user message exists. -/
def retryStart (s : HookState) : HookState × Option String :=
  match s.state.messages.reverse.find? (fun m => m.role = Role.user) with
  | none => (s, none)
  | some u =>
      let idx := s.state.messages.findIdx (fun m => m.messageId = u.messageId)
      (({ s with
          state := { s.state with
            messages := s.state.messages.take (idx + 1),
            error := none } }), some u.content)

/-- A whole retryLastMessage turn: the truncation, then (when a user message
was found) a full sendMessage turn with the recovered content. -/
def sessionRetry (cfg : ChatConfig) (enableStreaming : Bool)
    (oracle : Nat → StreamAttempt) (s : SessionState) : SessionState × Nat :=
  match retryStart s.hook with
  | (h, none) => (⟨h, s.mirror⟩, 0)
  | (h, some content) => sessionTurn cfg enableStreaming oracle content ⟨h, s.mirror⟩

/-- An externally visible action on the hook state: a sendMessage start, a
delivered streaming callback, a user stopStreaming, or the resolution of the
awaited call.  Used to quantify over arbitrary interleavings. -/
inductive Action where
  | send (content : String)
  | ev (e : Event)
  | stop
  | resolve (r : ChatResponse)

/-- Apply one action to the hook state. -/
def applyAction (enableStreaming : Bool) (s : HookState) (a : Action) : HookState :=
  match a with
  | Action.send c => hookSendStart enableStreaming c s
  | Action.ev e => applyEvent s e
  | Action.stop => stopStreaming s
  | Action.resolve r => applyResponse enableStreaming r s

/-- Run a sequence of actions from a hook state. -/
def runActions (enableStreaming : Bool) (s : HookState) (as : List Action) : HookState :=
  as.foldl (applyAction enableStreaming) s

/-- Is this event an onComplete invocation? -/
def isCompleteEvent : Event → Bool
  | Event.complete _ => true
  | _ => false

/-- Is this event an onError invocation? -/
def isErrorEvent : Event → Bool
  | Event.error _ => true
  | _ => false

/-- Concatenation, in arrival order, of the chunks of all onTokenReceived
invocations in an event list. -/
def tokenConcat (events : List Event) : String :=
  events.foldl
    (fun acc e =>
      match e with
      | Event.token t => acc ++ t
      | _ => acc) ""

/-! Concrete fixtures used by counterexamples and witnesses. -/

/-- A config with messageHistory on, one allowed attempt and a recognizable
fallback message. -/
def exCfg1 : ChatConfig := ⟨true, ⟨1, "fallback"⟩⟩

/-- A config with messageHistory on and two allowed attempts. -/
def exCfg2 : ChatConfig := ⟨true, ⟨2, "fallback"⟩⟩

/-- A config with messageHistory on and three allowed attempts (the values the
hook hard-codes: retries 3). -/
def exCfg3 : ChatConfig := ⟨true, ⟨3, "fallback"⟩⟩

/-- A config whose retries bound is zero. -/
def exCfg0 : ChatConfig := ⟨true, ⟨0, "fallback"⟩⟩

/-- A transport that fails every attempt after one chunk. -/
def failOracle : Nat → StreamAttempt := fun _ => ⟨["x"], some ⟨"Error", "boom"⟩⟩

/-- A transport that succeeds immediately with the single chunk "ok". -/
def okOracle : Nat → StreamAttempt := fun _ => ⟨["ok"], none⟩

/-- A transport whose first attempt delivers "a" and fails, and whose second
attempt delivers "b" then "c" and completes. -/
def mixOracle : Nat → StreamAttempt
  | 0 => ⟨["a"], some ⟨"Error", "boom"⟩⟩
  | _ => ⟨["b", "c"], none⟩

/-- The events of a run of consecutive attempts starting at attempt number
retries (used to state what the retry loop does while every attempt fails). -/
def failTrace (oracle : Nat → StreamAttempt) (retries : Nat) : Nat → List Event
  | 0 => []
  | n + 1 => attemptEvents (oracle retries) ++ failTrace oracle (retries + 1) n

/-- The delays the retry loop awaits over a run of n consecutive failures
whose first failure happened with the counter at retries. -/
def failDelays (retries : Nat) : Nat → List Nat
  | 0 => []
  | n + 1 => 1000 * (retries + 1) :: failDelays (retries + 1) n

/-! Lemmas about the chunk loop and the hook's event step. -/

/-- The chunk loop fires only onTokenReceived and onProgress. -/
theorem mem_chunkEvents (cs : List String) (acc : Nat) :
    ∀ e ∈ chunkEvents cs acc, isCompleteEvent e = false ∧ isErrorEvent e = false := by
  induction cs generalizing acc with
  | nil => intro e he; simp [chunkEvents] at he
  | cons c cs ih =>
      intro e he
      simp only [chunkEvents, List.mem_cons] at he
      rcases he with rfl | rfl | he
      · exact ⟨rfl, rfl⟩
      · exact ⟨rfl, rfl⟩
      · exact ih _ e he

/-- Events that are not onComplete leave the committed message sequence and
the id counter untouched. -/
theorem foldl_applyEvent_noCommit (es : List Event)
    (h : ∀ e ∈ es, isCompleteEvent e = false) (s : HookState) :
    (es.foldl applyEvent s).state.messages = s.state.messages ∧
    (es.foldl applyEvent s).nextId = s.nextId := by
  induction es generalizing s with
  | nil => exact ⟨rfl, rfl⟩
  | cons e es ih =>
      have he : isCompleteEvent e = false := h e (List.mem_cons_self e es)
      have hrest : ∀ e ∈ es, isCompleteEvent e = false :=
        fun e he => h e (List.mem_cons_of_mem _ he)
      have step : (applyEvent s e).state.messages = s.state.messages ∧
          (applyEvent s e).nextId = s.nextId := by
        cases e with
        | token t => exact ⟨rfl, rfl⟩
        | progress n => exact ⟨rfl, rfl⟩
        | complete full => simp [isCompleteEvent] at he
        | error err =>
            simp only [applyEvent]
            split <;> exact ⟨rfl, rfl⟩
      have := ih hrest (applyEvent s e)
      simp only [List.foldl_cons]
      exact ⟨this.1.trans step.1, this.2.trans step.2⟩

/-! Lemmas about the retry loop. -/

/-- A failed call leaves the history mirror exactly as the loop received it
and resolves with the configured fallback message. -/
theorem sendLoop_fail (cfg : ChatConfig) (stream : Bool)
    (oracle : Nat → StreamAttempt) (mid : String) (hist : List ChatMessage) :
    ∀ remaining retries accE accD made,
    (sendLoop cfg stream oracle mid hist remaining retries accE accD made).response.success
      = false →
    (sendLoop cfg stream oracle mid hist remaining retries accE accD made).history = hist ∧
    (sendLoop cfg stream oracle mid hist remaining retries accE accD made).response.error
      = some cfg.errorHandling.fallbackMessage := by
  intro remaining
  induction remaining with
  | zero => intro retries accE accD made _; exact ⟨rfl, rfl⟩
  | succ rem ih =>
      intro retries accE accD made hfail
      cases hf : (oracle retries).failure with
      | none => simp [sendLoop, hf] at hfail
      | some e =>
          by_cases hrem : rem = 0
          · subst hrem; simp [sendLoop, hf]
          · simp only [sendLoop, hf, if_neg hrem] at hfail ⊢
            exact ih _ _ _ _ hfail

/-- Peel the first index off a map over List.range. -/
theorem map_range_succ {α : Type} (f : Nat → α) (n : Nat) :
    (List.range (n + 1)).map f = f 0 :: (List.range n).map (fun j => f (j + 1)) := by
  rw [List.range_succ_eq_map]
  simp [List.map_map, Function.comp_def]

/-- Closed form of failDelays: the j-th delay of the run is
1000 * (attempt number of the failure that caused it). -/
theorem failDelays_eq (n : Nat) :
    ∀ retries, failDelays retries n = (List.range n).map (fun j => 1000 * (retries + j + 1)) := by
  induction n with
  | zero => intro retries; rfl
  | succ m ih =>
      intro retries
      rw [map_range_succ]
      simp only [failDelays, ih (retries + 1), List.cons.injEq]
      refine ⟨by ring_nf, ?_⟩
      apply List.map_congr_left
      intro j _
      ring_nf

/-- Exact behavior of the retry loop against a transport that fails every
attempt: with a positive fuel it makes exactly remaining further attempts,
fires the events of attempts retries, retries+1, ..., waits
1000 * (attempt number) between consecutive attempts, leaves the history
mirror alone, and resolves with the fallback message. -/
theorem sendLoop_allfail (cfg : ChatConfig) (oracle : Nat → StreamAttempt)
    (mid : String) (hist : List ChatMessage)
    (hfail : ∀ j, ((oracle j).failure).isSome = true) :
    ∀ remaining, 0 < remaining → ∀ retries accE accD made,
    sendLoop cfg true oracle mid hist remaining retries accE accD made =
      ⟨accE ++ failTrace oracle retries remaining,
       ⟨false, none, some mid, some cfg.errorHandling.fallbackMessage⟩,
       hist,
       accD ++ failDelays retries (remaining - 1),
       made + remaining⟩ := by
  intro remaining
  induction remaining with
  | zero => intro h; omega
  | succ rem ih =>
      intro _ retries accE accD made
      obtain ⟨e, he⟩ := Option.isSome_iff_exists.mp (hfail retries)
      have hae : attemptEvents (oracle retries) =
          chunkEvents (oracle retries).chunks 0 ++ [Event.error e] := by
        simp [attemptEvents, he]
      by_cases hrem : rem = 0
      · subst hrem
        conv_lhs => rw [sendLoop.eq_def]
        simp [he, failTrace, failDelays, hae]
      · obtain ⟨m, rfl⟩ : ∃ m, rem = m + 1 := ⟨rem - 1, by omega⟩
        have hstep : sendLoop cfg true oracle mid hist (m + 1 + 1) retries accE accD made =
            sendLoop cfg true oracle mid hist (m + 1) (retries + 1)
              (accE ++ (chunkEvents (oracle retries).chunks 0 ++ [Event.error e]))
              (accD ++ [1000 * (retries + 1)]) (made + 1) := by
          conv_lhs => rw [sendLoop.eq_def]
          simp [he]
        rw [hstep, ih (by omega) (retries + 1) _ _ (made + 1)]
        simp only [ClientResult.mk.injEq]
        refine ⟨?_, trivial, trivial, ?_, by omega⟩
        · simp [failTrace, hae, List.append_assoc]
        · simp [failDelays, List.append_assoc]

/-- The chunk loop fires no onComplete. -/
theorem countP_chunkEvents_complete (cs : List String) (acc : Nat) :
    (chunkEvents cs acc).countP isCompleteEvent = 0 :=
  List.countP_eq_zero.mpr (fun e he => by
    simp [(mem_chunkEvents cs acc e he).1])

/-- The chunk loop fires no onError. -/
theorem countP_chunkEvents_error (cs : List String) (acc : Nat) :
    (chunkEvents cs acc).countP isErrorEvent = 0 :=
  List.countP_eq_zero.mpr (fun e he => by
    simp [(mem_chunkEvents cs acc e he).2])

/-- A successful call got its text from a single successful attempt: the
resolved message is the concatenation of that attempt's chunks, the event
trace ends with onComplete of exactly that text, and no onComplete occurs
earlier in the trace. -/
theorem sendLoop_success_events (cfg : ChatConfig) (oracle : Nat → StreamAttempt)
    (mid : String) (hist : List ChatMessage) :
    ∀ remaining retries accE accD made,
    (sendLoop cfg true oracle mid hist remaining retries accE accD made).response.success
      = true →
    ∃ k pre, (oracle k).failure = none ∧
      (sendLoop cfg true oracle mid hist remaining retries accE accD made).response.message =
        some (String.join (oracle k).chunks) ∧
      (sendLoop cfg true oracle mid hist remaining retries accE accD made).events =
        accE ++ (pre ++ [Event.complete (String.join (oracle k).chunks)]) ∧
      (∀ e ∈ pre, isCompleteEvent e = false) := by
  intro remaining
  induction remaining with
  | zero =>
      intro retries accE accD made h
      rw [sendLoop.eq_def] at h
      simp at h
  | succ rem ih =>
      intro retries accE accD made h
      cases hf : (oracle retries).failure with
      | none =>
          refine ⟨retries, chunkEvents (oracle retries).chunks 0, hf, ?_, ?_, ?_⟩
          · conv_lhs => rw [sendLoop.eq_def]
            simp [hf]
          · conv_lhs => rw [sendLoop.eq_def]
            simp [hf]
          · intro e he
            exact (mem_chunkEvents _ _ e he).1
      | some e =>
          by_cases hrem : rem = 0
          · subst hrem
            rw [sendLoop.eq_def] at h
            simp [hf] at h
          · have hstep : sendLoop cfg true oracle mid hist (rem + 1) retries accE accD made =
                sendLoop cfg true oracle mid hist rem (retries + 1)
                  (accE ++ (chunkEvents (oracle retries).chunks 0 ++ [Event.error e]))
                  (accD ++ [1000 * (retries + 1)]) (made + 1) := by
              conv_lhs => rw [sendLoop.eq_def]
              simp [hf, hrem]
            rw [hstep] at h ⊢
            obtain ⟨k, pre, hk, hmsg, hev, hpre⟩ := ih (retries + 1) _ _ (made + 1) h
            refine ⟨k, chunkEvents (oracle retries).chunks 0 ++ Event.error e :: pre,
              hk, hmsg, ?_, ?_⟩
            · rw [hev]
              simp [List.append_assoc]
            · intro x hx
              rcases List.mem_append.mp hx with hx | hx
              · exact (mem_chunkEvents _ _ x hx).1
              · rcases List.mem_cons.mp hx with rfl | hx
                · rfl
                · exact hpre x hx

/-- Counting the completion and error callbacks of a streaming call: the
events the call adds to the trace contain one onComplete when the call
resolves successfully and none otherwise, and one onError per failed
attempt (every attempt except a final successful one fails). -/
theorem sendLoop_counts (cfg : ChatConfig) (oracle : Nat → StreamAttempt)
    (mid : String) (hist : List ChatMessage) :
    ∀ remaining retries accE accD made,
    ∃ tail,
      (sendLoop cfg true oracle mid hist remaining retries accE accD made).events =
        accE ++ tail ∧
      tail.countP isCompleteEvent =
        (if (sendLoop cfg true oracle mid hist remaining retries accE accD made).response.success
         then 1 else 0) ∧
      tail.countP isCompleteEvent + tail.countP isErrorEvent =
        (sendLoop cfg true oracle mid hist remaining retries accE accD made).attemptsMade - made ∧
      made ≤ (sendLoop cfg true oracle mid hist remaining retries accE accD made).attemptsMade := by
  intro remaining
  induction remaining with
  | zero =>
      intro retries accE accD made
      refine ⟨[], ?_, ?_, ?_, ?_⟩ <;> simp [sendLoop]
  | succ rem ih =>
      intro retries accE accD made
      cases hf : (oracle retries).failure with
      | none =>
          have hres : sendLoop cfg true oracle mid hist (rem + 1) retries accE accD made =
              ⟨accE ++ (chunkEvents (oracle retries).chunks 0 ++
                 [Event.complete (String.join (oracle retries).chunks)]),
               ⟨true, some (String.join (oracle retries).chunks), some mid, none⟩,
               if cfg.messageHistory then
                 hist ++ [⟨Role.assistant, String.join (oracle retries).chunks, 0, "mid"⟩]
               else hist,
               accD, made + 1⟩ := by
            conv_lhs => rw [sendLoop.eq_def]
            simp [hf]
          rw [hres]
          refine ⟨chunkEvents (oracle retries).chunks 0 ++
            [Event.complete (String.join (oracle retries).chunks)], rfl, ?_, ?_, ?_⟩ <;>
            simp [List.countP_append, countP_chunkEvents_complete,
              countP_chunkEvents_error, List.countP_cons, isCompleteEvent, isErrorEvent]
      | some e =>
          by_cases hrem : rem = 0
          · subst hrem
            have hres : sendLoop cfg true oracle mid hist 1 retries accE accD made =
                ⟨accE ++ (chunkEvents (oracle retries).chunks 0 ++ [Event.error e]),
                 ⟨false, none, some mid, some cfg.errorHandling.fallbackMessage⟩,
                 hist, accD, made + 1⟩ := by
              conv_lhs => rw [sendLoop.eq_def]
              simp [hf]
            rw [hres]
            refine ⟨chunkEvents (oracle retries).chunks 0 ++ [Event.error e], rfl, ?_, ?_, ?_⟩ <;>
              simp [List.countP_append, countP_chunkEvents_complete,
                countP_chunkEvents_error, List.countP_cons, isCompleteEvent, isErrorEvent]
          · have hstep : sendLoop cfg true oracle mid hist (rem + 1) retries accE accD made =
                sendLoop cfg true oracle mid hist rem (retries + 1)
                  (accE ++ (chunkEvents (oracle retries).chunks 0 ++ [Event.error e]))
                  (accD ++ [1000 * (retries + 1)]) (made + 1) := by
              conv_lhs => rw [sendLoop.eq_def]
              simp [hf, hrem]
            rw [hstep]
            obtain ⟨tail, hev, hc, hsum, hle⟩ := ih (retries + 1) _ _ (made + 1)
            refine ⟨(chunkEvents (oracle retries).chunks 0 ++ [Event.error e]) ++ tail,
              ?_, ?_, ?_, ?_⟩
            · rw [hev]
              simp [List.append_assoc]
            · rw [List.countP_append]
              simpa [List.countP_append, countP_chunkEvents_complete, List.countP_cons,
                isCompleteEvent] using hc
            · simp only [List.countP_append, countP_chunkEvents_complete,
                countP_chunkEvents_error, List.countP_cons, List.countP_nil,
                isCompleteEvent, isErrorEvent]
              simp only [Bool.false_eq_true, if_false, if_true]
              omega
            · omega

/-- A call whose first attempt succeeds resolves immediately with that
attempt's text, committing it to the history mirror, with no retry delay. -/
theorem sendLoop_first_success (cfg : ChatConfig) (stream : Bool)
    (oracle : Nat → StreamAttempt) (mid : String) (hist : List ChatMessage)
    (rem retries : Nat) (accE : List Event) (accD : List Nat) (made : Nat)
    (hf : (oracle retries).failure = none) :
    sendLoop cfg stream oracle mid hist (rem + 1) retries accE accD made =
      ⟨accE ++ (if stream then chunkEvents (oracle retries).chunks 0 ++
         [Event.complete (String.join (oracle retries).chunks)] else []),
       ⟨true, some (String.join (oracle retries).chunks), some mid, none⟩,
       if cfg.messageHistory then
         hist ++ [⟨Role.assistant, String.join (oracle retries).chunks, 0, "mid"⟩]
       else hist,
       accD, made + 1⟩ := by
  conv_lhs => rw [sendLoop.eq_def]
  simp [hf]

/-! Lemmas about the hook state machine. -/

/-- Every hook-state step with streaming enabled keeps isLoading and
isStreaming equal: sendMessage sets both, onTokenReceived touches neither,
and onComplete, onError, stopStreaming and a failure resolution clear both
together. -/
theorem applyAction_flags_eq (s : HookState) (a : Action)
    (h : s.state.isLoading = s.state.isStreaming) :
    (applyAction true s a).state.isLoading = (applyAction true s a).state.isStreaming := by
  cases a with
  | send c =>
      simp only [applyAction, hookSendStart]
      split
      · exact h
      · rfl
  | ev e =>
      cases e with
      | token t => exact h
      | progress n => exact h
      | complete full => rfl
      | error err =>
          simp only [applyAction, applyEvent]
          split
          · rfl
          · exact h
  | stop => rfl
  | resolve r =>
      simp only [applyAction, applyResponse, Bool.not_true, Bool.false_and,
        Bool.false_eq_true, if_false]
      split
      · rfl
      · exact h

/-- Chained version of applyAction_flags_eq over an action sequence. -/
theorem runActions_flags_eq (as : List Action) :
    ∀ s : HookState, s.state.isLoading = s.state.isStreaming →
    (runActions true s as).state.isLoading = (runActions true s as).state.isStreaming := by
  induction as with
  | nil => intro s h; exact h
  | cons a as ih =>
      intro s h
      simp only [runActions, List.foldl_cons]
      exact ih (applyAction true s a) (applyAction_flags_eq s a h)

/-- findIdx of a predicate that holds only at the final element. -/
theorem findIdx_append_last (p : ChatMessage → Bool) :
    ∀ (ms : List ChatMessage) (u : ChatMessage), (∀ m ∈ ms, p m = false) → p u = true →
    (ms ++ [u]).findIdx p = ms.length := by
  intro ms
  induction ms with
  | nil =>
      intro u _ hu
      simp [List.findIdx_cons, hu]
  | cons a ms ih =>
      intro u h hu
      have ha : p a = false := h a (List.mem_cons_self a ms)
      simp [List.findIdx_cons, ha,
        ih u (fun m hm => h m (List.mem_cons_of_mem _ hm)) hu]

/-- When the committed sequence ends with a user message whose id appears
nowhere earlier, retryLastMessage finds exactly that message, truncates
nothing away, clears the error, and re-issues that message's content. -/
theorem retryStart_ends_user (s : HookState) (ms : List ChatMessage) (u : ChatMessage)
    (hmsgs : s.state.messages = ms ++ [u]) (hu : u.role = Role.user)
    (hid : ∀ m ∈ ms, m.messageId ≠ u.messageId) :
    retryStart s =
      ({ s with state := { s.state with messages := ms ++ [u], error := none } },
       some u.content) := by
  have hfind : s.state.messages.reverse.find? (fun m => m.role = Role.user) = some u := by
    rw [hmsgs, List.reverse_append]
    simp only [List.reverse_singleton, List.singleton_append]
    exact List.find?_cons_of_pos _ (by simp [hu])
  have hidx : s.state.messages.findIdx (fun m => m.messageId = u.messageId) = ms.length := by
    rw [hmsgs]
    apply findIdx_append_last
    · intro m hm
      simp [hid m hm]
    · simp
  have htake : (ms ++ [u]).take (ms.length + 1) = ms ++ [u] := by
    have hlen : ms.length + 1 = (ms ++ [u]).length := by simp
    rw [hlen, List.take_length]
  unfold retryStart
  rw [hfind]
  rw [hmsgs] at hidx
  simp only [hmsgs, hidx, htake]

/-! Claim theorems. -/

/-- C1: the claim says that after stopStreaming() no delivered onToken or
onComplete of the call changes the session state.  The code violates this:
stopStreaming aborts an AbortController whose signal is never handed to the
transport, and the callbacks check no cancellation token, so in the
reachable trace sendMessage("hi"); stopStreaming(); token "x"; complete "x"
the post-stop token is appended to the streaming buffer (which the stop had
cleared) and the post-stop completion commits an assistant message. -/
theorem C1_token_after_stop_still_mutates :
    (stopStreaming (hookSendStart true "hi" initialHookState)).state.currentStreamingMessage
      = "" ∧
    (applyEvent (stopStreaming (hookSendStart true "hi" initialHookState))
        (Event.token "x")).state.currentStreamingMessage = "x" ∧
    ((stopStreaming (hookSendStart true "hi" initialHookState)).state.messages.map
        (fun m => m.content)) = ["hi"] ∧
    ((applyEvent (applyEvent (stopStreaming (hookSendStart true "hi" initialHookState))
        (Event.token "x")) (Event.complete "x")).state.messages.map
        (fun m => m.content)) = ["hi", "x"] := by
  decide

/-- C2 counterexample: the claim says isLoading and isStreaming are never
both true.  In the reachable state right after sendMessage("hi") with
streaming enabled, both are true: the hook sets isLoading := true and
isStreaming := enableStreaming in the same state update, and the first
token does not clear isLoading. -/
theorem C2_both_flags_true_after_send :
    (runActions true initialHookState [Action.send "hi"]).state.isLoading = true ∧
    (runActions true initialHookState [Action.send "hi"]).state.isStreaming = true := by
  decide

/-- C2 amended: with streaming enabled, isLoading and isStreaming are equal
in every state reachable by any sequence of sendMessage, token-arrival,
completion, error, stop and resolution events — both are set together by
sendMessage, the first token clears neither, and completion, error, stop
and failure resolution clear both together. -/
theorem C2_loading_streaming_flags_equal (as : List Action) :
    (runActions true initialHookState as).state.isLoading =
    (runActions true initialHookState as).state.isStreaming :=
  runActions_flags_eq as initialHookState rfl

/-- C9: sendMessage with input whose trimmed form is empty is a no-op: the
whole session state (messages, flags, buffer, error, the client's history
mirror) is unchanged and the transport is never invoked. -/
theorem C9_empty_input_noop (cfg : ChatConfig) (b : Bool)
    (oracle : Nat → StreamAttempt) (content : String) (s : SessionState)
    (h : jsTrim content = "") :
    sessionTurn cfg b oracle content s = (s, 0) := by
  unfold sessionTurn
  rw [if_pos h]

/-- C9 witness: a whitespace-only input on the initial session. -/
theorem C9_empty_input_noop_witness :
    sessionTurn exCfg3 true failOracle "  " ⟨initialHookState, []⟩ =
      (⟨initialHookState, []⟩, 0) :=
  C9_empty_input_noop exCfg3 true failOracle "  " ⟨initialHookState, []⟩ (by decide)

/-- C10: with errorHandling.retries ≤ 0 the while guard fails immediately:
no transport attempt is made, the call resolves with success = false and
the fallback message, no callback fires, and yet the user message is pushed
onto the history mirror when messageHistory is enabled. -/
theorem C10_nonpositive_retries (cfg : ChatConfig) (stream : Bool)
    (oracle : Nat → StreamAttempt) (role : Role) (content : String)
    (hist : List ChatMessage) (h : cfg.errorHandling.retries ≤ 0) :
    (clientSend cfg stream oracle role content hist).attemptsMade = 0 ∧
    (clientSend cfg stream oracle role content hist).response.success = false ∧
    (clientSend cfg stream oracle role content hist).response.error =
      some cfg.errorHandling.fallbackMessage ∧
    (clientSend cfg stream oracle role content hist).events = [] ∧
    (clientSend cfg stream oracle role content hist).history =
      (if cfg.messageHistory then hist ++ [⟨role, content, 0, "mid"⟩] else hist) := by
  have h0 : cfg.errorHandling.retries.toNat = 0 := by omega
  unfold clientSend
  rw [h0]
  exact ⟨rfl, rfl, rfl, rfl, rfl⟩

/-- C10 witness: a config with retries = 0 against an always-failing
transport. -/
theorem C10_nonpositive_retries_witness :
    (clientSend exCfg0 true failOracle Role.user "hi" []).attemptsMade = 0 ∧
    (clientSend exCfg0 true failOracle Role.user "hi" []).response.success = false ∧
    (clientSend exCfg0 true failOracle Role.user "hi" []).response.error =
      some exCfg0.errorHandling.fallbackMessage ∧
    (clientSend exCfg0 true failOracle Role.user "hi" []).events = [] ∧
    (clientSend exCfg0 true failOracle Role.user "hi" []).history =
      (if exCfg0.messageHistory then [] ++ [⟨Role.user, "hi", 0, "mid"⟩] else []) :=
  C10_nonpositive_retries exCfg0 true failOracle Role.user "hi" [] (by decide)

/-- C5 counterexample: the claim says a call whose transport fails on all
attempts leaves the history mirror unchanged.  With messageHistory enabled
and an always-failing transport, the failed call still appends the user
message to the mirror (ChatInterface.sendMessage pushes it before the retry
loop). -/
theorem C5_user_message_added_on_failure :
    (clientSend exCfg1 true failOracle Role.user "hi" []).response.success = false ∧
    (clientSend exCfg1 true failOracle Role.user "hi" []).history ≠ ([] : List ChatMessage) ∧
    (clientSend exCfg1 true failOracle Role.user "hi" []).history.map (fun m => m.content)
      = ["hi"] := by
  decide

/-- C5 amended: the assistant reply is added to the history mirror only on a
confirmed success; the user message however is pushed unconditionally before
the first attempt, so after a call that fails on all attempts the mirror
equals its old value plus exactly the user message (when messageHistory is
enabled; unchanged otherwise), with no assistant content. -/
theorem C5_failed_turn_history (cfg : ChatConfig) (stream : Bool)
    (oracle : Nat → StreamAttempt) (role : Role) (content : String)
    (hist : List ChatMessage)
    (h : (clientSend cfg stream oracle role content hist).response.success = false) :
    (clientSend cfg stream oracle role content hist).history =
      (if cfg.messageHistory then hist ++ [⟨role, content, 0, "mid"⟩] else hist) := by
  exact (sendLoop_fail cfg stream oracle "mid" _ _ 0 [] [] 0 h).1

/-- C5 witness: a single-attempt failing call with messageHistory on. -/
theorem C5_failed_turn_history_witness :
    (clientSend exCfg1 true failOracle Role.user "hi" []).history =
      (if exCfg1.messageHistory then [] ++ [⟨Role.user, "hi", 0, "mid"⟩] else []) :=
  C5_failed_turn_history exCfg1 true failOracle Role.user "hi" [] (by decide)

/-- C6 counterexample: the claim says a persistently failing call is
attempted 1 + maxAttempts times.  With maxAttempts = 1 the loop attempts the
call exactly once (the counter starts at 0, the first failure raises it to
1, and 1 >= 1 exhausts the policy), not twice. -/
theorem C6_not_one_plus_max_attempts :
    (clientSend exCfg1 true failOracle Role.user "hi" []).attemptsMade =
      exCfg1.errorHandling.retries.toNat ∧
    (clientSend exCfg1 true failOracle Role.user "hi" []).attemptsMade ≠
      1 + exCfg1.errorHandling.retries.toNat := by
  decide

/-- C6 amended: a persistently failing call is attempted exactly maxAttempts
times in total (maxAttempts - 1 retries after the first attempt), with
linear-backoff delays of 1000 * attemptNumber milliseconds between
consecutive attempts, and resolves with the fallback message. -/
theorem C6_attempts_and_linear_backoff (cfg : ChatConfig)
    (oracle : Nat → StreamAttempt) (role : Role) (content : String)
    (hist : List ChatMessage)
    (hfail : ∀ j, ((oracle j).failure).isSome = true)
    (hR : 0 < cfg.errorHandling.retries) :
    (clientSend cfg true oracle role content hist).attemptsMade =
      cfg.errorHandling.retries.toNat ∧
    (clientSend cfg true oracle role content hist).delays =
      (List.range (cfg.errorHandling.retries.toNat - 1)).map (fun j => 1000 * (j + 1)) ∧
    (clientSend cfg true oracle role content hist).response.success = false ∧
    (clientSend cfg true oracle role content hist).response.error =
      some cfg.errorHandling.fallbackMessage := by
  have hpos : 0 < cfg.errorHandling.retries.toNat := by omega
  have hcs : clientSend cfg true oracle role content hist =
      sendLoop cfg true oracle "mid"
        (if cfg.messageHistory then hist ++ [⟨role, content, 0, "mid"⟩] else hist)
        cfg.errorHandling.retries.toNat 0 [] [] 0 := rfl
  rw [hcs, sendLoop_allfail cfg oracle "mid" _ hfail _ hpos 0 [] [] 0]
  refine ⟨by simp, ?_, rfl, rfl⟩
  rw [List.nil_append, failDelays_eq]
  apply List.map_congr_left
  intro j _
  ring_nf

/-- C6 witness: the hook's configured policy (retries = 3) against an
always-failing transport: 3 attempts, delays 1000 ms and 2000 ms. -/
theorem C6_attempts_witness :
    (clientSend exCfg3 true failOracle Role.user "hi" []).attemptsMade =
      exCfg3.errorHandling.retries.toNat ∧
    (clientSend exCfg3 true failOracle Role.user "hi" []).delays =
      (List.range (exCfg3.errorHandling.retries.toNat - 1)).map (fun j => 1000 * (j + 1)) ∧
    (clientSend exCfg3 true failOracle Role.user "hi" []).response.success = false ∧
    (clientSend exCfg3 true failOracle Role.user "hi" []).response.error =
      some exCfg3.errorHandling.fallbackMessage :=
  C6_attempts_and_linear_backoff exCfg3 failOracle Role.user "hi" []
    (fun _ => rfl) (by decide)

/-- C7 counterexample: the claim says lastError is never the raw transport
error.  In streaming mode each failing attempt fires onError with the raw
error, and the hook's onError callback writes error.message into lastError:
after the events of a failing call the session state holds the raw "boom",
not the fallback. -/
theorem C7_raw_error_surfaced_midstream :
    ((clientSend exCfg1 true failOracle Role.user "hi" []).events.foldl applyEvent
        (hookSendStart true "hi" initialHookState)).state.error = some "boom" ∧
    ("boom" : String) ≠ exCfg1.errorHandling.fallbackMessage := by
  decide

/-- C7 amended: once the failed call resolves, the error recorded in the
session state is exactly the configured fallback message, in both streaming
and non-streaming modes; in streaming mode, however, the raw transport error
message of each failed attempt is transiently surfaced to lastError by the
onError callback before resolution. -/
theorem C7_final_error_is_fallback (cfg : ChatConfig) (b : Bool)
    (oracle : Nat → StreamAttempt) (content : String) (s : SessionState)
    (htrim : ¬ jsTrim content = "")
    (hfail : (clientSend cfg b oracle Role.user content s.mirror).response.success = false) :
    (sessionTurn cfg b oracle content s).1.hook.state.error =
      some cfg.errorHandling.fallbackMessage := by
  have herr : (clientSend cfg b oracle Role.user content s.mirror).response.error =
      some cfg.errorHandling.fallbackMessage :=
    (sendLoop_fail cfg b oracle "mid" _ _ 0 [] [] 0 hfail).2
  simp only [sessionTurn, if_neg htrim]
  simp only [applyResponse, hfail, Bool.and_false, Bool.not_false, if_false, if_true]
  simp [herr]

/-- C7 witness: a failing streaming call on the initial session resolves
with the fallback message in lastError. -/
theorem C7_final_error_witness :
    (sessionTurn exCfg1 true failOracle "hi" ⟨initialHookState, []⟩).1.hook.state.error =
      some exCfg1.errorHandling.fallbackMessage :=
  C7_final_error_is_fallback exCfg1 true failOracle "hi" ⟨initialHookState, []⟩
    (by decide) (by decide)

/-- C8 counterexample: the claim says onError fires at most once per call
and never together with onComplete.  Against a transport that fails all
three allowed attempts, onError fires three times (once per failed attempt,
from the catch block of handleStreamingResponse); against a transport that
fails once and then succeeds, the same call fires both onError and
onComplete. -/
theorem C8_onError_fires_per_failed_attempt :
    (clientSend exCfg3 true failOracle Role.user "hi" []).events.countP isErrorEvent = 3 ∧
    (clientSend exCfg2 true mixOracle Role.user "hi" []).events.countP isErrorEvent = 1 ∧
    (clientSend exCfg2 true mixOracle Role.user "hi" []).events.countP isCompleteEvent
      = 1 := by
  decide

/-- C8 amended: per call, onComplete fires at most once, and onError fires
exactly once per failed attempt — their counts add up to the number of
transport attempts, so a persistently failing call fires onError up to
maxAttempts times, and a call with a failed attempt followed by a successful
retry fires both. -/
theorem C8_callback_counts (cfg : ChatConfig) (oracle : Nat → StreamAttempt)
    (role : Role) (content : String) (hist : List ChatMessage) :
    (clientSend cfg true oracle role content hist).events.countP isCompleteEvent ≤ 1 ∧
    (clientSend cfg true oracle role content hist).events.countP isCompleteEvent +
      (clientSend cfg true oracle role content hist).events.countP isErrorEvent =
      (clientSend cfg true oracle role content hist).attemptsMade := by
  obtain ⟨tail, hev, hc, hsum, hle⟩ :=
    sendLoop_counts cfg oracle "mid"
      (if cfg.messageHistory then hist ++ [⟨role, content, 0, "mid"⟩] else hist)
      cfg.errorHandling.retries.toNat 0 [] [] 0
  have hcs : clientSend cfg true oracle role content hist =
      sendLoop cfg true oracle "mid"
        (if cfg.messageHistory then hist ++ [⟨role, content, 0, "mid"⟩] else hist)
        cfg.errorHandling.retries.toNat 0 [] [] 0 := rfl
  rw [hcs, hev]
  simp only [List.nil_append]
  constructor
  · rw [hc]
    by_cases hs : (sendLoop cfg true oracle "mid"
        (if cfg.messageHistory then hist ++ [⟨role, content, 0, "mid"⟩] else hist)
        cfg.errorHandling.retries.toNat 0 [] [] 0).response.success = true <;>
      simp [hs]
  · omega

/-- C3 counterexample: the claim says the committed assistant content equals
the concatenation of all onToken chunks including those of failed retried
attempts.  With a first attempt that delivers "a" and fails and a second
that delivers "b","c" and completes, the onToken concatenation is "abc" but
the committed assistant message holds only "bc" — a fresh attempt restarts
its accumulator, while onToken chunks of the failed attempt were already
forwarded. -/
theorem C3_failed_attempt_chunks_not_committed :
    tokenConcat (clientSend exCfg3 true mixOracle Role.user "hi" []).events = "abc" ∧
    ((clientSend exCfg3 true mixOracle Role.user "hi" []).events.foldl applyEvent
        (hookSendStart true "hi" initialHookState)).state.messages.map
          (fun m => m.content) = ["hi", "bc"] ∧
    ("bc" : String) ≠ "abc" := by
  decide

/-- C3 amended: for every streaming turn that completes successfully, the
assistant message committed on completion contains exactly the
concatenation, in arrival order, of the chunks delivered during the single
successful attempt; chunks delivered by earlier failed attempts are
forwarded via onToken but are not part of the committed content. -/
theorem C3_committed_text_is_successful_attempt (cfg : ChatConfig)
    (oracle : Nat → StreamAttempt) (role : Role) (content : String)
    (hist : List ChatMessage) (s : HookState)
    (hsucc : (clientSend cfg true oracle role content hist).response.success = true) :
    ∃ k m, (oracle k).failure = none ∧
      (clientSend cfg true oracle role content hist).response.message =
        some (String.join (oracle k).chunks) ∧
      m.role = Role.assistant ∧
      m.content = String.join (oracle k).chunks ∧
      ((clientSend cfg true oracle role content hist).events.foldl applyEvent s).state.messages
        = s.state.messages ++ [m] := by
  have hcs : clientSend cfg true oracle role content hist =
      sendLoop cfg true oracle "mid"
        (if cfg.messageHistory then hist ++ [⟨role, content, 0, "mid"⟩] else hist)
        cfg.errorHandling.retries.toNat 0 [] [] 0 := rfl
  rw [hcs] at hsucc ⊢
  obtain ⟨k, pre, hk, hmsg, hev, hpre⟩ :=
    sendLoop_success_events cfg oracle "mid"
      (if cfg.messageHistory then hist ++ [⟨role, content, 0, "mid"⟩] else hist)
      cfg.errorHandling.retries.toNat 0 [] [] 0 hsucc
  rw [hev]
  simp only [List.nil_append]
  obtain ⟨hmsgs, hnid⟩ := foldl_applyEvent_noCommit pre hpre s
  refine ⟨k,
    ⟨Role.assistant, String.join (oracle k).chunks, (pre.foldl applyEvent s).nextId,
     "assistant_" ++ toString ((pre.foldl applyEvent s).nextId)⟩,
    hk, hmsg, rfl, rfl, ?_⟩
  rw [List.foldl_append]
  simp only [List.foldl_cons, List.foldl_nil, applyEvent]
  rw [hmsgs]

/-- C3 witness: a turn whose first attempt fails and whose second succeeds
with chunks "b","c". -/
theorem C3_committed_text_witness :
    ∃ k m, (mixOracle k).failure = none ∧
      (clientSend exCfg3 true mixOracle Role.user "hi" []).response.message =
        some (String.join (mixOracle k).chunks) ∧
      m.role = Role.assistant ∧
      m.content = String.join (mixOracle k).chunks ∧
      ((clientSend exCfg3 true mixOracle Role.user "hi" []).events.foldl applyEvent
          initialHookState).state.messages
        = initialHookState.state.messages ++ [m] :=
  C3_committed_text_is_successful_attempt exCfg3 mixOracle Role.user "hi" []
    initialHookState (by decide)

/-- Token and progress callbacks touch only the streaming buffer: the
committed messages, the recorded error and the id counter are unchanged. -/
theorem foldl_chunkEvents_state (cs : List String) :
    ∀ (acc : Nat) (s : HookState),
    (((chunkEvents cs acc).foldl applyEvent s).state.messages = s.state.messages) ∧
    (((chunkEvents cs acc).foldl applyEvent s).state.error = s.state.error) ∧
    (((chunkEvents cs acc).foldl applyEvent s).nextId = s.nextId) := by
  induction cs with
  | nil => intro acc s; exact ⟨rfl, rfl, rfl⟩
  | cons c cs ih =>
      intro acc s
      simp only [chunkEvents, List.foldl_cons]
      exact ih (acc + c.length) (applyEvent (applyEvent s (Event.token c))
        (Event.progress (acc + c.length)))

/-- C4 counterexample: the claim says a successful retry yields exactly
[u, assistantMsg] with u appearing once.  After a failed turn leaves [u],
retryLastMessage truncates to [u] and then calls sendMessage(u.content),
which appends a fresh user message before issuing the call — on success the
committed sequence is [u, u2, assistantMsg], the user content duplicated. -/
theorem C4_user_message_duplicated :
    ((sessionRetry exCfg3 true okOracle
        (sessionTurn exCfg3 true failOracle "hi" ⟨initialHookState, []⟩).1).1.hook.state.messages.map
          (fun m => m.content)) = ["hi", "hi", "ok"] ∧
    ((sessionRetry exCfg3 true okOracle
        (sessionTurn exCfg3 true failOracle "hi" ⟨initialHookState, []⟩).1).1.hook.state.messages.map
          (fun m => m.content)) ≠ ["hi", "ok"] := by
  decide

/-- C4 amended: when the committed sequence ends with a user message u whose
id appears nowhere earlier, retryLastMessage truncates the sequence to end
at u, clears lastError, and re-issues u's original content; if the re-issued
turn succeeds, the resulting committed sequence is ms ++ [u, u2, assistantMsg]
where u2 is a freshly appended user message with the same content as u — the
re-issued content appears twice, once as u and once as u2. -/
theorem C4_retry_reissues_and_duplicates (cfg : ChatConfig) (b : Bool)
    (oracle : Nat → StreamAttempt) (ms : List ChatMessage) (u : ChatMessage)
    (mirror : List ChatMessage) (s : HookState)
    (hmsgs : s.state.messages = ms ++ [u])
    (hu : u.role = Role.user)
    (hid : ∀ m ∈ ms, m.messageId ≠ u.messageId)
    (htrim : ¬ jsTrim u.content = "")
    (hk : (oracle 0).failure = none)
    (hR : 0 < cfg.errorHandling.retries) :
    ∃ u2 a,
      (sessionRetry cfg b oracle ⟨s, mirror⟩).1.hook.state.messages = ms ++ [u, u2, a] ∧
      u2.role = Role.user ∧
      u2.content = u.content ∧
      a.role = Role.assistant ∧
      a.content = String.join (oracle 0).chunks ∧
      (sessionRetry cfg b oracle ⟨s, mirror⟩).1.hook.state.error = none := by
  obtain ⟨rem, hrem⟩ : ∃ rem, cfg.errorHandling.retries.toNat = rem + 1 :=
    ⟨cfg.errorHandling.retries.toNat - 1, by omega⟩
  have hcs : clientSend cfg b oracle Role.user u.content mirror =
      sendLoop cfg b oracle "mid"
        (if cfg.messageHistory then mirror ++ [⟨Role.user, u.content, 0, "mid"⟩] else mirror)
        cfg.errorHandling.retries.toNat 0 [] [] 0 := rfl
  rw [hrem] at hcs
  rw [sendLoop_first_success cfg b oracle "mid" _ rem 0 [] [] 0 hk] at hcs
  simp only [sessionRetry]
  rw [retryStart_ends_user s ms u hmsgs hu hid]
  simp only [sessionTurn, if_neg htrim]
  rw [hcs]
  simp only [List.nil_append]
  have hh1 : hookSendStart b u.content
      { s with state := { s.state with messages := ms ++ [u], error := none } } =
      ⟨⟨(ms ++ [u]) ++ [⟨Role.user, u.content, s.nextId, "user_" ++ toString s.nextId⟩],
        true, none, b, ""⟩, "", true, s.nextId + 1⟩ := by
    simp only [hookSendStart, if_neg htrim]
  rw [hh1]
  cases b with
  | true =>
      simp only [if_true]
      have happ : ∀ X : HookState,
          applyResponse true
            ⟨true, some (String.join (oracle 0).chunks), some "mid", none⟩ X = X := by
        intro X
        simp [applyResponse]
      rw [happ]
      rw [List.foldl_append]
      obtain ⟨hm2, he2, hn2⟩ := foldl_chunkEvents_state (oracle 0).chunks 0
        ⟨⟨(ms ++ [u]) ++ [⟨Role.user, u.content, s.nextId, "user_" ++ toString s.nextId⟩],
          true, none, true, ""⟩, "", true, s.nextId + 1⟩
      refine ⟨⟨Role.user, u.content, s.nextId, "user_" ++ toString s.nextId⟩,
        ⟨Role.assistant, String.join (oracle 0).chunks, s.nextId + 1,
         "assistant_" ++ toString (s.nextId + 1)⟩, ?_, rfl, rfl, rfl, rfl, ?_⟩
      · simp only [List.foldl_cons, List.foldl_nil, applyEvent]
        rw [hm2, hn2]
        simp
      · simp only [List.foldl_cons, List.foldl_nil, applyEvent]
        exact he2
  | false =>
      simp only [Bool.false_eq_true, if_false, List.foldl_nil]
      refine ⟨⟨Role.user, u.content, s.nextId, "user_" ++ toString s.nextId⟩,
        ⟨Role.assistant, String.join (oracle 0).chunks, s.nextId + 1, "mid"⟩,
        ?_, rfl, rfl, rfl, rfl, ?_⟩
      · simp only [applyResponse]
        simp
      · simp only [applyResponse]
        simp

/-- C4 witness: a sequence ending with the user message "hi" and a transport
that succeeds immediately with "ok". -/
theorem C4_retry_witness :
    ∃ u2 a,
      (sessionRetry exCfg3 true okOracle
          ⟨⟨⟨[⟨Role.user, "hi", 0, "user_0"⟩], false, some "fallback", false, ""⟩, "", false, 1⟩,
           []⟩).1.hook.state.messages =
        [] ++ [⟨Role.user, "hi", 0, "user_0"⟩, u2, a] ∧
      u2.role = Role.user ∧
      u2.content = (⟨Role.user, "hi", 0, "user_0"⟩ : ChatMessage).content ∧
      a.role = Role.assistant ∧
      a.content = String.join (okOracle 0).chunks ∧
      (sessionRetry exCfg3 true okOracle
          ⟨⟨⟨[⟨Role.user, "hi", 0, "user_0"⟩], false, some "fallback", false, ""⟩, "", false, 1⟩,
           []⟩).1.hook.state.error = none :=
  C4_retry_reissues_and_duplicates exCfg3 true okOracle [] ⟨Role.user, "hi", 0, "user_0"⟩
    [] ⟨⟨[⟨Role.user, "hi", 0, "user_0"⟩], false, some "fallback", false, ""⟩, "", false, 1⟩
    rfl rfl (by intro m hm; simp at hm) (by decide) rfl (by decide)

end UntitledAI
